import Mathlib

/-!
Verification of the restish API-surface discovery and compilation engine.

This file gives a shallow embedding, in Lean, of the relevant parts of the
Go sources under src/cli (links.go, operation.go) and of the OpenAPI loader
(the unnamed source part), and proves or refutes the frozen claims about
them.  Go dynamic values (decoded JSON bodies, parameter values) are
embedded as the inductive type GoValue; Go maps appear as association
lists whose order stands for the (unspecified) Go map iteration order; a
nil Go map is distinguished from an empty one via Option.  Machine-level
string functions (strings.Contains, strings.HasPrefix, strings.Split,
strconv parsing) are re-implemented over character lists so that every
definition evaluates inside the kernel.
-/

namespace Restish

/-- Character-list test: does the first list start with the second?
Models strings.HasPrefix on the underlying bytes (here: characters). -/
def chPre : List Char → List Char → Bool
  | _, [] => true
  | [], _ :: _ => false
  | c :: cs, p :: ps => c == p && chPre cs ps

/-- Character-list substring test.  Models strings.Contains. -/
def chContains : List Char → List Char → Bool
  | [], pat => pat.isEmpty
  | c :: cs, pat => chPre (c :: cs) pat || chContains cs pat

/-- strings.Contains on strings, via the character lists. -/
def strContainsSub (s pat : String) : Bool :=
  chContains s.data pat.data

/-- strings.HasPrefix on strings, via the character lists. -/
def strStarts (s pat : String) : Bool :=
  chPre s.data pat.data

/-- Splitting worker: splits the input at every non-overlapping occurrence
of the (non-empty) separator s1 :: srest, scanning left to right.  The
last list argument is the reversed accumulator of the current field.  The
fuel argument makes the recursion structural (every step consumes at least
one input character, so fuel equal to the input length suffices; the
fuel-exhaustion branch is unreachable then). -/
def chSplitF : Nat → Char → List Char → List Char → List Char → List (List Char)
  | _, _, _, [], acc => [acc.reverse]
  | 0, _, _, l, acc => [acc.reverse ++ l]
  | fuel + 1, s1, srest, c :: cs, acc =>
    if chPre (c :: cs) (s1 :: srest) then
      acc.reverse :: chSplitF fuel s1 srest (cs.drop srest.length) []
    else
      chSplitF fuel s1 srest cs (c :: acc)

/-- strings.Split (and the Lean String.splitOn behaviour) for a non-empty
separator; with an empty separator the whole string is returned unsplit. -/
def strSplitOn (s sep : String) : List String :=
  match sep.data with
  | [] => [s]
  | c :: cs => (chSplitF s.data.length c cs s.data []).map String.mk

/-- Join a list of character lists with a separator, the inverse of
chSplitGo.  Models strings.Join. -/
def chJoinSep (sep : List Char) : List (List Char) → List Char
  | [] => []
  | [x] => x
  | x :: y :: rest => x ++ sep ++ chJoinSep sep (y :: rest)

/-- strings.Join on strings. -/
def strJoinSep (sep : String) (xs : List String) : String :=
  String.mk (chJoinSep sep.data (xs.map String.data))

/-- strings.Replace with count 1: replace the first occurrence of pat
(non-empty in every use below) by rep. -/
def replaceFirstOcc (s pat rep : String) : String :=
  match strSplitOn s pat with
  | [] => s
  | [x] => x
  | x :: rest => x ++ rep ++ strJoinSep pat rest

/-- Decimal digits of a natural number, fuel-driven so that the kernel can
evaluate it. -/
def natDigitsGo : Nat → Nat → List Char
  | 0, _ => []
  | fuel + 1, n =>
    if n < 10 then [Char.ofNat (48 + n)]
    else natDigitsGo fuel (n / 10) ++ [Char.ofNat (48 + n % 10)]

/-- Decimal rendering of a natural number. -/
def natStr (n : Nat) : String :=
  String.mk (natDigitsGo (n + 1) n)

/-- Decimal rendering of an integer. -/
def intStr : Int → String
  | .ofNat n => natStr n
  | .negSucc n => "-" ++ natStr (n + 1)

/-- Digit-list parsing worker for strconv-style integer parsing. -/
def chDigitsGo : List Char → Nat → Option Nat
  | [], acc => some acc
  | c :: cs, acc =>
    if c.isDigit then chDigitsGo cs (acc * 10 + (c.toNat - 48))
    else none

/-- Parse a non-empty all-digit list as a natural number. -/
def chDigits : List Char → Option Nat
  | [] => none
  | c :: cs => chDigitsGo (c :: cs) 0

/-- strconv.ParseInt-style integer parsing of a decimal string, used by the
parameter parser model. -/
def strToIntQ (s : String) : Option Int :=
  match s.data with
  | '-' :: ds => (chDigits ds).map (fun n => -(n : Int))
  | ds => (chDigits ds).map Int.ofNat

/-- Go dynamic values as decoded from JSON-like bodies and as bound flag
values.  vArrNil is the Go nil slice, distinct from the empty non-nil
slice vArr []: reflect.Value.IsZero holds of the former only (the header
branch of Operation.command documents exactly this distinction).  Maps are
association lists with string keys; the list order stands for the Go map
iteration order. -/
inductive GoValue where
  | vNull
  | vBool (b : Bool)
  | vInt (n : Int)
  | vStr (s : String)
  | vArr (xs : List GoValue)
  | vArrNil
  | vMap (entries : List (String × GoValue))

mutual
/-- Structural equality of GoValue, used to model the Go interface
comparison in the default-suppression branches (under the assumption,
drawn from the specification wording, that comparable dynamic types
align). -/
def goValueBEq : GoValue → GoValue → Bool
  | .vNull, .vNull => true
  | .vBool a, .vBool b => a == b
  | .vInt a, .vInt b => a == b
  | .vStr a, .vStr b => a == b
  | .vArr xs, .vArr ys => goValueListBEq xs ys
  | .vArrNil, .vArrNil => true
  | .vMap es, .vMap fs => goValueMapBEq es fs
  | _, _ => false

/-- Elementwise equality of slice values. -/
def goValueListBEq : List GoValue → List GoValue → Bool
  | [], [] => true
  | x :: xs, y :: ys => goValueBEq x y && goValueListBEq xs ys
  | _, _ => false

/-- Entrywise equality of map values. -/
def goValueMapBEq : List (String × GoValue) → List (String × GoValue) → Bool
  | [], [] => true
  | (k, v) :: es, (l, w) :: fs => k == l && goValueBEq v w && goValueMapBEq es fs
  | _, _ => false
end

mutual
/-- fmt.Sprintf with verb %v on a GoValue (map rendering keeps list order
where Go would sort keys; no claim depends on it). -/
def goValueToString : GoValue → String
  | .vNull => "<nil>"
  | .vBool b => if b then "true" else "false"
  | .vInt n => intStr n
  | .vStr s => s
  | .vArr xs => "[" ++ strJoinSep " " (goValueListStrings xs) ++ "]"
  | .vArrNil => "[]"
  | .vMap es => "map[" ++ strJoinSep " " (goValueMapStrings es) ++ "]"

/-- Renderings of the elements of a slice value. -/
def goValueListStrings : List GoValue → List String
  | [] => []
  | x :: xs => goValueToString x :: goValueListStrings xs

/-- Renderings of the entries of a map value. -/
def goValueMapStrings : List (String × GoValue) → List String
  | [] => []
  | (k, v) :: es => (k ++ ":" ++ goValueToString v) :: goValueMapStrings es
end

/-- The media-type selection of getRequestInfo (unnamed source part, lines
253-300), restricted to the media-type component: prefer a media type
containing "json", then one containing "yaml", then the first declared.
The Go code iterates a map; the list order here stands for that iteration
order. -/
def getRequestInfoMT (mts : List String) : String :=
  match mts.find? (fun mt => strContainsSub mt "json") with
  | some mt => mt
  | none =>
    match mts.find? (fun mt => strContainsSub mt "yaml") with
    | some mt => mt
    | none => mts.headD ""

/-- Structured URL.  Models net/url.URL restricted to scheme, host and
path; query, fragment, user info, escaping and dot-segment removal are
outside the model (no claim exercises them). -/
structure GoURL where
  scheme : String
  host : String
  path : String
deriving DecidableEq, Repr

/-- Models net/url.Parse for plain references: either an absolute URL of
the shape scheme://host/path, or a (possibly rootless) path reference.
net/url.Parse fails only on control characters and malformed escapes,
which the model excludes, so parsing is total here. -/
def goURLParse (s : String) : GoURL :=
  match strSplitOn s "://" with
  | [_] => { scheme := "", host := "", path := s }
  | [] => { scheme := "", host := "", path := s }
  | sch :: rest =>
    let r := strJoinSep "://" rest
    match strSplitOn r "/" with
    | [] => { scheme := sch, host := r, path := "" }
    | [h] => { scheme := sch, host := h, path := "" }
    | h :: ps => { scheme := sch, host := h, path := "/" ++ strJoinSep "/" ps }

/-- Models the URL.String rendering for the URL subset above. -/
def urlToString (u : GoURL) : String :=
  if u.scheme ≠ "" then u.scheme ++ "://" ++ u.host ++ u.path
  else if u.host ≠ "" then "//" ++ u.host ++ u.path
  else u.path

/-- Everything up to and including the last slash of a path; empty when
the path has no slash.  Merge helper of RFC 3986 section 5.3. -/
def dropLastSeg (p : String) : String :=
  String.mk ((p.data.reverse.dropWhile (fun c => c ≠ '/')).reverse)

/-- RFC 3986 path merge for relative references (dot segments excluded
from the model). -/
def mergePaths (b r : String) : String :=
  if r = "" then b else dropLastSeg b ++ r

/-- Models URL.ResolveReference on the URL subset above: an absolute
reference wins outright; a protocol-relative reference keeps the base
scheme; an absolute-path reference keeps scheme and host; a relative path
is merged against the base path. -/
def resolveRef (base ref : GoURL) : GoURL :=
  if ref.scheme ≠ "" then ref
  else if ref.host ≠ "" then { scheme := base.scheme, host := ref.host, path := ref.path }
  else if strStarts ref.path "/" then { scheme := base.scheme, host := base.host, path := ref.path }
  else { scheme := base.scheme, host := base.host, path := mergePaths base.path ref.path }

/-- The base-path selection loop of loadOpenAPI3 (unnamed source part,
lines 490-502): scan the declared servers in order and, for every server
URL that has the entrypoint scheme-plus-host string as a prefix, overwrite
basePath with the path component of that server URL. -/
def computeBasePath (servers : List String) (pre : String) : String :=
  servers.foldl (fun bp s => if strStarts s pre then (goURLParse s).path else bp) ""

/-- The base-path selection as the specification words it: among the
matching servers, the FIRST one in declaration order wins. -/
def firstMatchBasePath (servers : List String) (pre : String) : String :=
  (((servers.filter (fun s => strStarts s pre)).head?).map (fun s => (goURLParse s).path)).getD ""

/-- The base-path selection as the code actually behaves: among the
matching servers, the LAST one in declaration order wins. -/
def lastMatchBasePath (servers : List String) (pre : String) : String :=
  (((servers.filter (fun s => strStarts s pre)).getLast?).map (fun s => (goURLParse s).path)).getD ""

/-- A left fold that overwrites its accumulator at every element
satisfying p computes the image of the last such element. -/
theorem foldl_overwrite_eq_getLast {α β : Type _} (g : α → β) (p : α → Bool) :
    ∀ (l : List α) (b : β),
      l.foldl (fun acc s => if p s then g s else acc) b
        = (((l.filter p).getLast?).map g).getD b := by
  intro l
  induction l with
  | nil => intro b; rfl
  | cons x xs ih =>
    intro b
    by_cases hx : p x = true
    · rw [List.foldl_cons, if_pos hx, ih]
      rw [List.filter_cons, if_pos hx]
      cases hfl : xs.filter p with
      | nil => simp [hfl]
      | cons y ys =>
        rw [List.getLast?_cons_cons]
        cases hg : (y :: ys).getLast? with
        | none => exact absurd (List.getLast?_eq_none_iff.mp hg) (by simp)
        | some z => simp [hg]
    · rw [List.foldl_cons, if_neg hx, ih]
      rw [List.filter_cons, if_neg hx]

/-- C4, corrected: the base-path scan of loadOpenAPI3 does not stop at the
first server whose URL matches the entrypoint scheme-plus-host; it
overwrites the base path on every match, so among the matching servers the
LAST one in declaration order wins and its path component becomes the
compiled base path. -/
theorem c4_basePathLastMatch (servers : List String) (pre : String) :
    computeBasePath servers pre = lastMatchBasePath servers pre := by
  unfold computeBasePath lastMatchBasePath
  exact foldl_overwrite_eq_getLast (fun s => (goURLParse s).path) (fun s => strStarts s pre) servers ""

/-- C4, counterexample to the claim as stated: with two declared servers
both matching the entrypoint scheme-plus-host, the compiled base path is
the path of the SECOND (last) server, not of the first as the claim
asserts. -/
theorem c4_firstMatch_cex :
    computeBasePath ["https://api.example.com/v1", "https://api.example.com/v2"]
        "https://api.example.com" = "/v2"
    ∧ firstMatchBasePath ["https://api.example.com/v1", "https://api.example.com/v2"]
        "https://api.example.com" = "/v1"
    ∧ ("/v2" : String) ≠ "/v1" :=
  ⟨rfl, rfl, by decide⟩

/-- Parameter style, cli.StyleSimple and cli.StyleForm. -/
inductive Style where
  | simple
  | form
deriving DecidableEq, Repr

/-- cli.Param, the compiled parameter model.  The Go fields Default and
Example hold interface values; absent ones are Go nil, embedded as none.
The field dflt embeds Default and exampleVal embeds Example (both renamed
to keep Lean keywords free). -/
structure Param where
  typ : String
  name : String
  displayName : String
  description : String
  style : Style
  explode : Bool
  dflt : Option GoValue
  exampleVal : Option GoValue

/-- The schema fields of an openapi3 parameter that openapiOperation
reads: Type, Items element type, Default and Example. -/
structure OASchema where
  typ : String
  itemsTyp : String
  dflt : Option GoValue
  exampleVal : Option GoValue

/-- An openapi3 parameter as consumed by openapiOperation: name, location
(In), description, optional schema, parameter-level example, style string,
optional explode flag and the x-cli-name extension. -/
structure OAParam where
  name : String
  inLoc : String
  description : String
  schema : Option OASchema
  exampleVal : Option GoValue
  styleStr : String
  explodeOpt : Option Bool
  extName : Option String

/-- The per-parameter compilation of openapiOperation (unnamed source
part, lines 309-355): type read from the schema with array element types
bracketed, style form only when declared as "form", explode defaulting to
false, default from the schema, example preferring the parameter-level
value over the schema-level one, display name from the x-cli-name
extension. -/
def compileParam (p : OAParam) : Param :=
  let typ :=
    match p.schema with
    | none => "string"
    | some s => if s.typ = "array" then s.typ ++ "[" ++ s.itemsTyp ++ "]" else s.typ
  let dflt :=
    match p.schema with
    | none => none
    | some s => s.dflt
  let ex0 :=
    match p.schema with
    | none => none
    | some s => s.exampleVal
  let ex :=
    match p.exampleVal with
    | some e => some e
    | none => ex0
  { typ := typ, name := p.name, displayName := p.extName.getD "",
    description := p.description,
    style := if p.styleStr = "form" then Style.form else Style.simple,
    explode := p.explodeOpt.getD false, dflt := dflt, exampleVal := ex }

/-- One step of the parameter classification switch of openapiOperation:
append the compiled parameter to the path, query or header list according
to its location, dropping unknown locations. -/
def classifyStep (acc : List Param × List Param × List Param) (p : OAParam) :
    List Param × List Param × List Param :=
  let param := compileParam p
  if p.inLoc = "path" then (acc.1 ++ [param], acc.2.1, acc.2.2)
  else if p.inLoc = "query" then (acc.1, acc.2.1 ++ [param], acc.2.2)
  else if p.inLoc = "header" then (acc.1, acc.2.1, acc.2.2 ++ [param])
  else acc

/-- The parameter-merging part of openapiOperation (unnamed source part,
lines 302-366): combinedParams is the plain concatenation of the
path-level and operation-level parameter lists, classified in order. -/
def openapiOperationParams (pathPs opPs : List OAParam) :
    List Param × List Param × List Param :=
  (pathPs ++ opPs).foldl classifyStep ([], [], [])

/-- cli.Operation, the compiled operation model (src/cli/operation.go,
lines 17-30; the Examples field is unused by the embedded code paths). -/
structure Operation where
  name : String
  aliases : List String
  short : String
  long : String
  method : String
  uriTemplate : String
  pathParams : List Param
  queryParams : List Param
  headerParams : List Param
  bodyMediaType : String
  hidden : Bool

/-- An openapi3 operation as consumed by openapiOperation and
loadOpenAPI3: identifier, summary, description, parameters, the media
types of the declared request-body content (none when no request body),
and the x-cli extensions present on the operation.  An extension field
some b means the extension is present and unmarshals to b. -/
structure OAOperation where
  operationId : String
  summary : String
  description : String
  parameters : List OAParam
  requestContent : Option (List String)
  extName : Option String
  extAliases : Option (List String)
  extDescription : Option String
  extIgnore : Option Bool

/-- An openapi3 path item as consumed by loadOpenAPI3: path-level
parameters, the path-level x-cli-ignore and x-cli-hidden extensions, and
the method-to-operation mapping. -/
structure OAPathItem where
  parameters : List OAParam
  extIgnore : Option Bool
  extHidden : Option Bool
  operations : List (String × OAOperation)

/-- Models gosimple/slug.Make for ASCII inputs: lowercase the
alphanumerics and turn everything else into a dash (run collapsing and
trimming are omitted; no claim inspects a name that would need them). -/
def slugMake (s : String) : String :=
  String.mk (s.data.map (fun c => if c.isAlphanum then c.toLower else '-'))

/-- openapiOperation (unnamed source part, lines 302-474) without the
long-description synthesis: the appended request-schema, request-example
and response documentation blocks are omitted since no claim reads Long
beyond the extension override.  Note the source reads the x-cli-hidden
extension from the PATH item. -/
def compiledOperation (method : String) (uriT : GoURL) (item : OAPathItem)
    (op : OAOperation) : Operation :=
  let lists := openapiOperationParams item.parameters op.parameters
  let name := if op.extName.getD "" ≠ "" then op.extName.getD "" else slugMake op.operationId
  let desc := if op.extDescription.getD "" ≠ "" then op.extDescription.getD "" else op.description
  let mediaType :=
    match op.requestContent with
    | none => ""
    | some mts => getRequestInfoMT mts
  { name := name, aliases := op.extAliases.getD [], short := op.summary, long := desc,
    method := method, uriTemplate := urlToString uriT,
    pathParams := lists.1, queryParams := lists.2.1, headerParams := lists.2.2,
    bodyMediaType := mediaType, hidden := item.extHidden.getD false }

/-- The operation-collection loop of loadOpenAPI3 (unnamed source part,
lines 504-531).  The outer check skips a path whose x-cli-ignore extension
unmarshals to true; the inner check re-reads the PATH-level extension (not
the operation-level one) before every method, exactly as the source does.
The resolver collaborator is the loader, whose Resolve is
base.ResolveReference(url.Parse(relURI)). -/
def loadOperations (base : GoURL) (bp : String)
    (paths : List (String × OAPathItem)) : List Operation :=
  paths.foldl
    (fun acc uriItem =>
      let uri := uriItem.1
      let item := uriItem.2
      let ignore := item.extIgnore.getD false
      if ignore then acc
      else
        let resolved := resolveRef base (goURLParse (bp ++ uri))
        item.operations.foldl
          (fun acc2 mop =>
            let ignore2 :=
              match item.extIgnore with
              | some b => b
              | none => ignore
            if ignore2 then acc2
            else acc2 ++ [compiledOperation mop.1 resolved item mop.2])
          acc)
    []

/-- Folding the classification switch appends, to each accumulator
component, the compiled parameters of that location in order. -/
theorem classify_foldl (l : List OAParam) :
    ∀ acc : List Param × List Param × List Param,
      l.foldl classifyStep acc
        = (acc.1 ++ (l.filter (fun p => p.inLoc == "path")).map compileParam,
           acc.2.1 ++ (l.filter (fun p => p.inLoc == "query")).map compileParam,
           acc.2.2 ++ (l.filter (fun p => p.inLoc == "header")).map compileParam) := by
  induction l with
  | nil => intro acc; simp
  | cons x xs ih =>
    intro acc
    rw [List.foldl_cons, ih]
    by_cases h1 : x.inLoc = "path"
    · simp [classifyStep, h1, List.filter_cons]
    · by_cases h2 : x.inLoc = "query"
      · simp [classifyStep, h1, h2, List.filter_cons]
      · by_cases h3 : x.inLoc = "header"
        · simp [classifyStep, h1, h2, h3, List.filter_cons]
        · simp [classifyStep, h1, h2, h3, List.filter_cons]

/-- C5, corrected: openapiOperation does NOT merge path-level and
operation-level parameters with override; it concatenates them, path-level
first, and classifies by location, so a name shared by both levels at the
same location yields two compiled Parameters, and per-name counts add. -/
theorem c5_paramsConcatNoOverride (pathPs opPs : List OAParam) :
    openapiOperationParams pathPs opPs
      = (((pathPs ++ opPs).filter (fun p => p.inLoc == "path")).map compileParam,
         ((pathPs ++ opPs).filter (fun p => p.inLoc == "query")).map compileParam,
         ((pathPs ++ opPs).filter (fun p => p.inLoc == "header")).map compileParam)
    ∧ (openapiOperationParams pathPs opPs).2.1
        = (openapiOperationParams pathPs []).2.1 ++ (openapiOperationParams [] opPs).2.1
    ∧ ∀ n : String,
        (((openapiOperationParams pathPs opPs).2.1).filter (fun q => q.name == n)).length
          = (((openapiOperationParams pathPs []).2.1).filter (fun q => q.name == n)).length
            + (((openapiOperationParams [] opPs).2.1).filter (fun q => q.name == n)).length := by
  have hmain := classify_foldl (pathPs ++ opPs) ([], [], [])
  have hp := classify_foldl (pathPs ++ []) ([], [], [])
  have ho := classify_foldl ([] ++ opPs) ([], [], [])
  refine ⟨by simpa [openapiOperationParams] using hmain, ?_, ?_⟩
  · simp only [openapiOperationParams, hmain, hp, ho]
    simp [List.filter_append]
  · intro n
    simp only [openapiOperationParams, hmain, hp, ho]
    simp [List.filter_append]

/-- Path-level query parameter named id. -/
def c5PathP : OAParam :=
  { name := "id", inLoc := "query", description := "from path item", schema := none,
    exampleVal := none, styleStr := "", explodeOpt := none, extName := none }

/-- Operation-level query parameter with the same name and location. -/
def c5OpP : OAParam :=
  { c5PathP with description := "from operation" }

/-- Operation declaring the duplicate query parameter. -/
def c5Op : OAOperation :=
  { operationId := "list", summary := "", description := "", parameters := [c5OpP],
    requestContent := none, extName := none, extAliases := none, extDescription := none,
    extIgnore := none }

/-- Path item declaring the path-level copy of the parameter. -/
def c5Item : OAPathItem :=
  { parameters := [c5PathP], extIgnore := none, extHidden := none,
    operations := [("GET", c5Op)] }

/-- C5, counterexample to the claim as stated: a query parameter declared
at both the path level and the operation level under the same name and
location appears TWICE in the compiled operation (path-level definition
first), not once with the operation-level definition. -/
theorem c5_override_cex :
    ((compiledOperation "GET" ⟨"https", "api.example.com", "/things"⟩ c5Item c5Op).queryParams).length = 2
    ∧ ((compiledOperation "GET" ⟨"https", "api.example.com", "/things"⟩ c5Item c5Op).queryParams).map
        (fun q => q.description) = ["from path item", "from operation"]
    ∧ ¬ ((compiledOperation "GET" ⟨"https", "api.example.com", "/things"⟩ c5Item c5Op).queryParams).length = 1 :=
  ⟨rfl, rfl, by decide⟩

/-- C2, confirmed: getRequestInfo prefers a media type containing "json",
then one containing "yaml", then falls back to a declared one, and an
operation declaring xml, yaml and json bodies compiles to the json media
type. -/
theorem c2_mediaTypePreference (mts : List String) :
    ((mts.any fun mt => strContainsSub mt "json") = true →
        strContainsSub (getRequestInfoMT mts) "json" = true)
    ∧ ((mts.any fun mt => strContainsSub mt "json") = false →
        (mts.any fun mt => strContainsSub mt "yaml") = true →
          strContainsSub (getRequestInfoMT mts) "yaml" = true)
    ∧ (mts ≠ [] → getRequestInfoMT mts ∈ mts)
    ∧ (compiledOperation "POST"
        ⟨"https", "api.example.com", "/things"⟩
        { parameters := [], extIgnore := none, extHidden := none, operations := [] }
        { operationId := "create", summary := "", description := "", parameters := [],
          requestContent := some ["application/xml", "application/yaml", "application/json"],
          extName := none, extAliases := none, extDescription := none,
          extIgnore := none }).bodyMediaType = "application/json" := by
  refine ⟨?_, ?_, ?_, rfl⟩
  · intro h
    obtain ⟨mt, hmem, hmt⟩ := List.any_eq_true.mp h
    cases hf : mts.find? (fun mt => strContainsSub mt "json") with
    | none => exact absurd hmt (List.find?_eq_none.mp hf mt hmem)
    | some m =>
      simp only [getRequestInfoMT, hf]
      have h3 := List.find?_some hf
      simpa using h3
  · intro h1 h2
    have hnone : mts.find? (fun mt => strContainsSub mt "json") = none := by
      rw [List.find?_eq_none]
      intro x hx
      exact (List.any_eq_false.mp h1) x hx
    obtain ⟨mt, hmem, hmt⟩ := List.any_eq_true.mp h2
    cases hf : mts.find? (fun mt => strContainsSub mt "yaml") with
    | none => exact absurd hmt (List.find?_eq_none.mp hf mt hmem)
    | some m =>
      simp only [getRequestInfoMT, hnone, hf]
      have h3 := List.find?_some hf
      simpa using h3
  · intro hne
    unfold getRequestInfoMT
    cases hf : mts.find? (fun mt => strContainsSub mt "json") with
    | some m => exact List.mem_of_find?_eq_some hf
    | none =>
      cases hf2 : mts.find? (fun mt => strContainsSub mt "yaml") with
      | some m => exact List.mem_of_find?_eq_some hf2
      | none =>
        cases mts with
        | nil => exact absurd rfl hne
        | cons x xs => exact List.mem_cons_self x xs

/-- Witness for C2: the preference theorem applied at concrete media-type
lists. -/
theorem c2_mediaTypePreference_wit :
    strContainsSub (getRequestInfoMT ["application/xml", "application/yaml", "application/json"]) "json" = true
    ∧ strContainsSub (getRequestInfoMT ["application/xml", "application/yaml"]) "yaml" = true
    ∧ getRequestInfoMT ["text/plain"] ∈ ["text/plain"] :=
  ⟨(c2_mediaTypePreference _).1 (by rfl),
   (c2_mediaTypePreference _).2.1 (by rfl) (by rfl),
   (c2_mediaTypePreference _).2.2.1 (by decide)⟩

/-- Operation carrying the x-cli-ignore extension with value true. -/
def c3IgnoredOp : OAOperation :=
  { operationId := "secret-op", summary := "", description := "", parameters := [],
    requestContent := none, extName := none, extAliases := none, extDescription := none,
    extIgnore := some true }

/-- Path item WITHOUT a path-level ignore extension whose only operation
is flagged ignored. -/
def c3Item : OAPathItem :=
  { parameters := [], extIgnore := none, extHidden := none,
    operations := [("GET", c3IgnoredOp)] }

/-- The same path item with the path-level ignore extension set. -/
def c3ItemPathIgnored : OAPathItem :=
  { parameters := [], extIgnore := some true, extHidden := none,
    operations := [("GET", c3IgnoredOp)] }

/-- C3, code bug: an operation flagged ignored via its own x-cli-ignore
extension still appears in the compiled Operations list, because the inner
check of loadOpenAPI3 re-reads the PATH-level extension instead of the
operation-level one (its comment says "Ignore this operation").  Path-level
ignoring does work. -/
theorem c3_ignoredOperationCompiled :
    (loadOperations ⟨"https", "api.example.com", ""⟩ "" [("/secret", c3Item)]).map
        (fun o => o.name) = ["secret-op"]
    ∧ (loadOperations ⟨"https", "api.example.com", ""⟩ "" [("/secret", c3Item)]).length = 1
    ∧ loadOperations ⟨"https", "api.example.com", ""⟩ "" [("/secret", c3ItemPathIgnored)] = [] :=
  ⟨rfl, rfl, rfl⟩

/-- cli.Link: one discovered hypermedia relation. -/
structure Link where
  rel : String
  uri : String

/-- cli.Links: Go map from relation name to slice of Link pointers.  The
association-list order stands for Go map iteration order; per-relation
slices keep insertion order. -/
abbrev LinksMap := List (String × List Link)

/-- cli.Response as consumed by the link parsers: headers, the Links map
(none embeds the Go nil map) and the decoded body. -/
structure Response where
  headers : List (String × String)
  links : Option LinksMap
  body : GoValue

/-- Outcome kinds of a Go parser call: a returned error, or a runtime
panic (which aborts the whole call chain). -/
inductive LinkErr where
  | goErr (msg : String)
  | goPanic (msg : String)
deriving DecidableEq, Repr

/-- Append a link under a relation key, preserving per-relation insertion
order and creating the entry when absent (the append half of the Go map
assignment). -/
def linksAppend (m : LinksMap) (rel : String) (l : Link) : LinksMap :=
  match m with
  | [] => [(rel, [l])]
  | (r, ls) :: rest =>
    if r = rel then (r, ls ++ [l]) :: rest
    else (r, ls) :: linksAppend rest rel l

/-- The Go statement resp.Links[rel] = append(resp.Links[rel], l):
reading from a nil map yields the empty slice, but ASSIGNING into a nil
map panics at runtime. -/
def goMapStore (om : Option LinksMap) (rel : String) (l : Link) :
    Except LinkErr (Option LinksMap) :=
  match om with
  | none => .error (.goPanic "assignment to entry in nil map")
  | some m => .ok (some (linksAppend m rel l))

/-- mapstructure decoding of one link object: the href field must be a
string when present and defaults to the empty string when absent. -/
def halHrefOf (fields : List (String × GoValue)) : Option String :=
  match fields.lookup "href" with
  | some (.vStr s) => some s
  | none => some ""
  | some _ => none

/-- mapstructure decoding of the value of the _links key: a map from
relation name to link object. -/
def halDecodeLinks : List (String × GoValue) → Option (List (String × String))
  | [] => some []
  | (rel, .vMap fields) :: rest =>
    match halHrefOf fields, halDecodeLinks rest with
    | some h, some hs => some ((rel, h) :: hs)
    | _, _ => none
  | _ :: _ => none

/-- mapstructure.Decode of a body into halBody: non-map bodies fail to
decode (the parser then silently skips), a map without _links decodes to
no links, and a malformed _links value fails to decode. -/
def halDecode : GoValue → Option (List (String × String))
  | .vMap es =>
    match es.lookup "_links" with
    | none => some []
    | some (.vMap ls) => halDecodeLinks ls
    | some _ => none
  | _ => none

/-- The storing loop of HALParser.ParseLinks: record every relation except
curies via the Go map assignment (src/cli/links.go, lines 101-111). -/
def halStoreAll : List (String × String) → Option LinksMap → Except LinkErr (Option LinksMap)
  | [], st => .ok st
  | (rel, href) :: rest, st =>
    if rel = "curies" then halStoreAll rest st
    else
      match goMapStore st rel { rel := rel, uri := href } with
      | .error e => .error e
      | .ok st2 => halStoreAll rest st2

/-- HALParser.ParseLinks (src/cli/links.go, lines 98-115). -/
def halParseLinks (r : Response) : Except LinkErr Response :=
  match halDecode r.body with
  | none => .ok r
  | some ls =>
    match halStoreAll ls r.links with
    | .error e => .error e
    | .ok st => .ok { r with links := st }

/-- mapstructure decoding of a homogeneous string slice. -/
def strListOf : List GoValue → Option (List String)
  | [] => some []
  | .vStr s :: rest => (strListOf rest).map (fun ss => s :: ss)
  | _ :: _ => none

/-- mapstructure decoding of the rel field of a Siren link: a list of
relation names, empty when absent. -/
def sirenRelsOf (fields : List (String × GoValue)) : Option (List String) :=
  match fields.lookup "rel" with
  | some (.vArr rs) => strListOf rs
  | some .vArrNil => some []
  | none => some []
  | some _ => none

/-- mapstructure decoding of the entries of the links sequence of a Siren
body. -/
def sirenDecodeItems : List GoValue → Option (List (List String × String))
  | [] => some []
  | .vMap fields :: rest =>
    match sirenRelsOf fields, halHrefOf fields, sirenDecodeItems rest with
    | some rs, some h, some tail => some ((rs, h) :: tail)
    | _, _, _ => none
  | _ :: _ => none

/-- mapstructure.Decode of a body into sirenBody. -/
def sirenDecode : GoValue → Option (List (List String × String))
  | .vMap es =>
    match es.lookup "links" with
    | none => some []
    | some (.vArr items) => sirenDecodeItems items
    | some .vArrNil => some []
    | some _ => none
  | _ => none

/-- The inner relation loop of SirenParser.ParseLinks: one stored Link per
relation name, via the Go map assignment. -/
def sirenStoreRels : List String → String → Option LinksMap → Except LinkErr (Option LinksMap)
  | [], _, st => .ok st
  | rel :: rs, href, st =>
    match goMapStore st rel { rel := rel, uri := href } with
    | .error e => .error e
    | .ok st2 => sirenStoreRels rs href st2

/-- The outer link loop of SirenParser.ParseLinks: links with an empty
href are skipped (src/cli/links.go, lines 179-189). -/
def sirenStoreAll : List (List String × String) → Option LinksMap → Except LinkErr (Option LinksMap)
  | [], st => .ok st
  | (rels, href) :: rest, st =>
    if href = "" then sirenStoreAll rest st
    else
      match sirenStoreRels rels href st with
      | .error e => .error e
      | .ok st2 => sirenStoreAll rest st2

/-- SirenParser.ParseLinks (src/cli/links.go, lines 176-194). -/
def sirenParseLinks (r : Response) : Except LinkErr Response :=
  match sirenDecode r.body with
  | none => .ok r
  | some ls =>
    match sirenStoreAll ls r.links with
    | .error e => .error e
    | .ok st => .ok { r with links := st }

mutual
/-- TerrificallySimpleJSONParser.walk (src/cli/links.go, lines 126-161):
slices recurse with the synthetic -item suffix on the current key; map
entries whose key is self are recorded under the INCOMING key (after
initialising a nil Links map) and not descended into; other map entries
recurse with THEIR OWN key, discarding the accumulated path. -/
def tsjWalk : String → GoValue → Option LinksMap → Option LinksMap
  | key, .vArr xs, st => tsjWalkList (key ++ "-item") xs st
  | key, .vMap es, st => tsjWalkMap key es st
  | _, _, st => st

/-- walk over the elements of a slice (the nil slice has no elements). -/
def tsjWalkList : String → List GoValue → Option LinksMap → Option LinksMap
  | _, [], st => st
  | key, x :: xs, st => tsjWalkList key xs (tsjWalk key x st)

/-- walk over the entries of a map, in iteration order. -/
def tsjWalkMap : String → List (String × GoValue) → Option LinksMap → Option LinksMap
  | _, [], st => st
  | key, (k, v) :: es, st =>
    if k = "self" then
      tsjWalkMap key es
        (some (linksAppend (st.getD []) key { rel := key, uri := goValueToString v }))
    else
      tsjWalkMap key es (tsjWalk k v st)
end

/-- TerrificallySimpleJSONParser.ParseLinks (src/cli/links.go, lines
121-123): walk the whole body starting from the key self; the walk never
returns an error. -/
def tsjParseLinks (r : Response) : Except LinkErr Response :=
  .ok { r with links := tsjWalk "self" r.body r.links }

/-- The parser loop of ParseLinks (src/cli/links.go, lines 36-40): run the
registered parsers in order, aborting on the first error. -/
def runParsers : List (Response → Except LinkErr Response) → Response → Except LinkErr Response
  | [], r => .ok r
  | p :: ps, r =>
    match p r with
    | .error e => .error e
    | .ok r2 => runParsers ps r2

/-- Rewriting of one discovered link against the base URL (src/cli/links.go,
lines 44-50): parse its URI, resolve against the base, store the absolute
string back. -/
def resolveLink (base : GoURL) (l : Link) : Link :=
  { rel := l.rel, uri := urlToString (resolveRef base (goURLParse l.uri)) }

/-- The resolution loop of ParseLinks over the whole Links map; a nil map
has nothing to iterate. -/
def linksRewrite (base : GoURL) : Option LinksMap → Option LinksMap
  | none => none
  | some m => some (m.map (fun kv => (kv.1, kv.2.map (resolveLink base))))

/-- cli.ParseLinks (src/cli/links.go, lines 35-55): run every registered
parser in order, then resolve every discovered link URI against the base
URL in place. -/
def ParseLinks (ps : List (Response → Except LinkErr Response)) (base : GoURL)
    (r : Response) : Except LinkErr Response :=
  match runParsers ps r with
  | .error e => .error e
  | .ok r2 => .ok { r2 with links := linksRewrite base r2.links }

/-- All links of a Links map in map-then-slice order. -/
def flattenLinks : LinksMap → List Link
  | [] => []
  | kv :: rest => kv.2 ++ flattenLinks rest

/-- All links of an optional Links map. -/
def flattenOpt : Option LinksMap → List Link
  | none => []
  | some m => flattenLinks m

mutual
/-- The links the walk records, computed directly from the body: a self
entry yields one link under the incoming key; slices add the -item suffix;
other map entries continue under their own key. -/
def tsjLinksOf : String → GoValue → List Link
  | key, .vArr xs => tsjLinksOfList (key ++ "-item") xs
  | key, .vMap es => tsjLinksOfMap key es
  | _, _ => []

/-- Links recorded across the elements of a slice. -/
def tsjLinksOfList : String → List GoValue → List Link
  | _, [] => []
  | key, x :: xs => tsjLinksOf key x ++ tsjLinksOfList key xs

/-- Links recorded across the entries of a map. -/
def tsjLinksOfMap : String → List (String × GoValue) → List Link
  | _, [] => []
  | key, (k, v) :: es =>
    if k = "self" then { rel := key, uri := goValueToString v } :: tsjLinksOfMap key es
    else tsjLinksOf k v ++ tsjLinksOfMap key es
end

/-- Appending a link under a relation adds exactly that link to the
flattened link collection, up to permutation. -/
theorem flattenLinks_linksAppend (m : LinksMap) (rel : String) (l : Link) :
    (flattenLinks (linksAppend m rel l)).Perm (flattenLinks m ++ [l]) := by
  induction m with
  | nil =>
    simp only [linksAppend, flattenLinks, List.nil_append, List.append_nil]
    exact List.Perm.refl _
  | cons kv rest ih =>
    obtain ⟨r, ls⟩ := kv
    by_cases h : r = rel
    · simp only [linksAppend, if_pos h, flattenLinks]
      rw [List.append_assoc, List.append_assoc]
      exact List.Perm.append_left ls List.perm_append_comm
    · simp only [linksAppend, if_neg h, flattenLinks]
      rw [List.append_assoc]
      exact List.Perm.append_left ls ih

/-- The nil-map read of the walk agrees with the flattened view. -/
theorem flattenLinks_getD (st : Option LinksMap) :
    flattenLinks (st.getD []) = flattenOpt st := by
  cases st <;> rfl

mutual
/-- The walk appends exactly the links computed by tsjLinksOf to the
incoming state, up to permutation of the map buckets. -/
theorem tsjWalk_perm (key : String) (v : GoValue) (st : Option LinksMap) :
    (flattenOpt (tsjWalk key v st)).Perm (flattenOpt st ++ tsjLinksOf key v) := by
  cases v with
  | vArr xs => exact tsjWalkList_perm (key ++ "-item") xs st
  | vMap es => exact tsjWalkMap_perm key es st
  | vNull =>
    show (flattenOpt st).Perm (flattenOpt st ++ [])
    rw [List.append_nil]
  | vBool b =>
    show (flattenOpt st).Perm (flattenOpt st ++ [])
    rw [List.append_nil]
  | vInt n =>
    show (flattenOpt st).Perm (flattenOpt st ++ [])
    rw [List.append_nil]
  | vStr s =>
    show (flattenOpt st).Perm (flattenOpt st ++ [])
    rw [List.append_nil]
  | vArrNil =>
    show (flattenOpt st).Perm (flattenOpt st ++ [])
    rw [List.append_nil]

/-- List version of tsjWalk_perm. -/
theorem tsjWalkList_perm (key : String) (xs : List GoValue) (st : Option LinksMap) :
    (flattenOpt (tsjWalkList key xs st)).Perm (flattenOpt st ++ tsjLinksOfList key xs) := by
  cases xs with
  | nil =>
    show (flattenOpt st).Perm (flattenOpt st ++ [])
    rw [List.append_nil]
  | cons x rest =>
    have h1 := tsjWalkList_perm key rest (tsjWalk key x st)
    have h2 := (tsjWalk_perm key x st).append_right (tsjLinksOfList key rest)
    have h3 := h1.trans h2
    rw [List.append_assoc] at h3
    exact h3

/-- Map version of tsjWalk_perm. -/
theorem tsjWalkMap_perm (key : String) (es : List (String × GoValue)) (st : Option LinksMap) :
    (flattenOpt (tsjWalkMap key es st)).Perm (flattenOpt st ++ tsjLinksOfMap key es) := by
  cases es with
  | nil =>
    show (flattenOpt st).Perm (flattenOpt st ++ [])
    rw [List.append_nil]
  | cons kv rest =>
    obtain ⟨k, v⟩ := kv
    by_cases hk : k = "self"
    · have e1 : tsjWalkMap key ((k, v) :: rest) st
          = tsjWalkMap key rest
              (some (linksAppend (st.getD []) key { rel := key, uri := goValueToString v })) := by
        simp [tsjWalkMap, hk]
      have e2 : tsjLinksOfMap key ((k, v) :: rest)
          = { rel := key, uri := goValueToString v } :: tsjLinksOfMap key rest := by
        simp [tsjLinksOfMap, hk]
      rw [e1, e2]
      have h1 := tsjWalkMap_perm key rest
        (some (linksAppend (st.getD []) key { rel := key, uri := goValueToString v }))
      have h2 : (flattenOpt (some (linksAppend (st.getD []) key
            { rel := key, uri := goValueToString v }))).Perm
          (flattenOpt st ++ [{ rel := key, uri := goValueToString v }]) := by
        have h0 := flattenLinks_linksAppend (st.getD []) key
          { rel := key, uri := goValueToString v }
        rwa [flattenLinks_getD] at h0
      have h3 := h1.trans (h2.append_right (tsjLinksOfMap key rest))
      rw [List.append_assoc] at h3
      exact h3
    · have e1 : tsjWalkMap key ((k, v) :: rest) st = tsjWalkMap key rest (tsjWalk k v st) := by
        simp [tsjWalkMap, hk]
      have e2 : tsjLinksOfMap key ((k, v) :: rest)
          = tsjLinksOf k v ++ tsjLinksOfMap key rest := by
        simp [tsjLinksOfMap, hk]
      rw [e1, e2]
      have h1 := tsjWalkMap_perm key rest (tsjWalk k v st)
      have h2 := (tsjWalk_perm k v st).append_right (tsjLinksOfMap key rest)
      have h3 := h1.trans h2
      rw [List.append_assoc] at h3
      exact h3
end

/-- C6, corrected: the generic self-link walk records, for every mapping
entry whose key is exactly self, one Link whose relation name is the
NEAREST enclosing mapping key (with the synthetic -item suffix appended
when traversing a sequence) and whose URI is the textual form of the
value; every such link is kept (appended, none dropped), even when links
at different nesting paths share a relation name. -/
theorem c6_selfWalkNoDrop (key : String) (v : GoValue) (st : Option LinksMap) :
    (flattenOpt (tsjWalk key v st)).Perm (flattenOpt st ++ tsjLinksOf key v) :=
  tsjWalk_perm key v st

/-- Body holding two self links at different nesting paths whose nearest
enclosing keys coincide. -/
def c6Body : GoValue :=
  .vMap [("a", .vMap [("self", .vStr "/1")]),
         ("b", .vMap [("a", .vMap [("self", .vStr "/2")])])]

/-- C6, counterexample to the claim as stated: the two self links found at
the distinct nesting paths a.self and b.a.self are both recorded under the
SINGLE relation name a (the nearest enclosing key, not the joined path),
so they do not get two distinct relation names. -/
theorem c6_pathJoin_cex :
    tsjWalk "self" c6Body none
      = some [("a", [{ rel := "a", uri := "/1" }, { rel := "a", uri := "/2" }])]
    ∧ ((tsjWalk "self" c6Body none).getD []).length = 1
    ∧ flattenOpt (tsjWalk "self" c6Body none)
        = [{ rel := "a", uri := "/1" }, { rel := "a", uri := "/2" }] :=
  ⟨rfl, rfl, rfl⟩

/-- Splitting the parser list splits the run at the first error. -/
theorem runParsers_append (ps1 ps2 : List (Response → Except LinkErr Response)) :
    ∀ r, runParsers (ps1 ++ ps2) r
      = match runParsers ps1 r with
        | .error e => .error e
        | .ok mid => runParsers ps2 mid := by
  induction ps1 with
  | nil => intro r; rfl
  | cons q qs ih =>
    intro r
    rw [List.cons_append]
    cases hq : q r with
    | error e => simp [runParsers, hq]
    | ok r2 => simp [runParsers, hq, ih]

/-- The HAL shape is absent: the body is not a map, or has no _links
entry. -/
def halShapeAbsent : GoValue → Bool
  | .vMap es => (es.lookup "_links").isNone
  | _ => true

/-- The Siren shape is absent: the body is not a map, or has no links
entry. -/
def sirenShapeAbsent : GoValue → Bool
  | .vMap es => (es.lookup "links").isNone
  | _ => true

/-- With the HAL shape absent, decoding yields a failing or empty
halBody. -/
theorem halDecode_absent (b : GoValue) (h : halShapeAbsent b = true) :
    halDecode b = none ∨ halDecode b = some [] := by
  cases b with
  | vMap es =>
    simp only [halShapeAbsent, Option.isNone_iff_eq_none] at h
    right
    simp [halDecode, h]
  | vNull => left; rfl
  | vBool b => left; rfl
  | vInt n => left; rfl
  | vStr s => left; rfl
  | vArr xs => left; rfl
  | vArrNil => left; rfl

/-- With the Siren shape absent, decoding yields a failing or empty
sirenBody. -/
theorem sirenDecode_absent (b : GoValue) (h : sirenShapeAbsent b = true) :
    sirenDecode b = none ∨ sirenDecode b = some [] := by
  cases b with
  | vMap es =>
    simp only [sirenShapeAbsent, Option.isNone_iff_eq_none] at h
    right
    simp [sirenDecode, h]
  | vNull => left; rfl
  | vBool b => left; rfl
  | vInt n => left; rfl
  | vStr s => left; rfl
  | vArr xs => left; rfl
  | vArrNil => left; rfl

/-- C7, confirmed: parsers run in registration order and the first
returned error aborts resolution with that error, with the later parsers
never consulted; a parser that succeeds hands its updated response to the
rest of the chain; and the HAL and Siren parsers, on a body where their
dialect shape is absent, contribute no links and return no error. -/
theorem c7_parserOrder (ps1 ps2 : List (Response → Except LinkErr Response))
    (p : Response → Except LinkErr Response) (base : GoURL) (r r1 : Response) (e : LinkErr) :
    (runParsers ps1 r = .ok r1 → p r1 = .error e →
        ParseLinks (ps1 ++ p :: ps2) base r = .error e)
    ∧ (∀ r2, p r = .ok r2 → ParseLinks (p :: ps2) base r = ParseLinks ps2 base r2)
    ∧ (∀ resp : Response, halShapeAbsent resp.body = true → halParseLinks resp = .ok resp)
    ∧ (∀ resp : Response, sirenShapeAbsent resp.body = true → sirenParseLinks resp = .ok resp) := by
  refine ⟨?_, ?_, ?_, ?_⟩
  · intro h1 h2
    unfold ParseLinks
    rw [runParsers_append, h1]
    simp [runParsers, h2]
  · intro r2 h
    unfold ParseLinks
    simp [runParsers, h]
  · intro resp h
    rcases halDecode_absent resp.body h with hd | hd
    · unfold halParseLinks
      rw [hd]
    · unfold halParseLinks
      rw [hd]
      rfl
  · intro resp h
    rcases sirenDecode_absent resp.body h with hd | hd
    · unfold sirenParseLinks
      rw [hd]
    · unfold sirenParseLinks
      rw [hd]
      rfl

/-- A parser value that fails, standing for LinkHeaderParser on a
malformed Link header. -/
def c7Bad : Response → Except LinkErr Response :=
  fun _ => .error (.goErr "malformed link header")

/-- A response whose body carries neither the HAL nor the Siren shape. -/
def c7Resp : Response :=
  { headers := [], links := none, body := .vStr "plain" }

/-- Witness for C7: a failing parser placed before the self-link parser
aborts the whole resolution with its error, and the HAL parser on a
shapeless body is a no-op. -/
theorem c7_parserOrder_wit :
    ParseLinks ([] ++ c7Bad :: [tsjParseLinks]) ⟨"https", "api.example.com", "/w"⟩ c7Resp
        = .error (.goErr "malformed link header")
    ∧ halParseLinks c7Resp = .ok c7Resp :=
  ⟨(c7_parserOrder [] [tsjParseLinks] c7Bad ⟨"https", "api.example.com", "/w"⟩ c7Resp c7Resp
      (.goErr "malformed link header")).1 rfl rfl,
   (c7_parserOrder [] [tsjParseLinks] c7Bad ⟨"https", "api.example.com", "/w"⟩ c7Resp c7Resp
      (.goErr "malformed link header")).2.2.1 c7Resp rfl⟩

/-- Rewriting every link of every bucket rewrites the flattened list. -/
theorem flattenLinks_rewriteMap (f : Link → Link) (m : LinksMap) :
    flattenLinks (m.map (fun kv => (kv.1, kv.2.map f))) = (flattenLinks m).map f := by
  induction m with
  | nil => rfl
  | cons kv rest ih => simp [flattenLinks, ih]

/-- C9, confirmed: when ParseLinks succeeds, the returned response is the
parser-chain result with every discovered Link rewritten in place to the
absolute form of its URI resolved against the base URL. -/
theorem c9_linksResolved (ps : List (Response → Except LinkErr Response)) (base : GoURL)
    (r r2 : Response) :
    ParseLinks ps base r = .ok r2 →
    ∃ mid, runParsers ps r = .ok mid
      ∧ r2.links = linksRewrite base mid.links
      ∧ flattenOpt r2.links = (flattenOpt mid.links).map (resolveLink base) := by
  intro h
  unfold ParseLinks at h
  cases hr : runParsers ps r with
  | error e => rw [hr] at h; exact absurd h (by simp)
  | ok mid =>
    rw [hr] at h
    injection h with h2
    subst h2
    refine ⟨mid, rfl, rfl, ?_⟩
    show flattenOpt (linksRewrite base mid.links) = (flattenOpt mid.links).map (resolveLink base)
    cases hm : mid.links with
    | none => rfl
    | some m => exact flattenLinks_rewriteMap (resolveLink base) m

/-- Response fetched at https://api.example.com/widgets whose body carries
one relative self link. -/
def c9Resp : Response :=
  { headers := [], links := none, body := .vMap [("self", .vStr "/widgets/9")] }

/-- The resolved response: the discovered link rewritten to absolute
form. -/
def c9Out : Response :=
  { headers := [],
    links := some [("self", [{ rel := "self", uri := "https://api.example.com/widgets/9" }])],
    body := .vMap [("self", .vStr "/widgets/9")] }

/-- Witness for C9: the relative link /widgets/9 discovered from a
response fetched at https://api.example.com/widgets resolves to
https://api.example.com/widgets/9. -/
theorem c9_linksResolved_wit :
    ∃ mid, runParsers [tsjParseLinks] c9Resp = .ok mid
      ∧ c9Out.links = linksRewrite ⟨"https", "api.example.com", "/widgets"⟩ mid.links
      ∧ flattenOpt c9Out.links
          = (flattenOpt mid.links).map (resolveLink ⟨"https", "api.example.com", "/widgets"⟩) :=
  c9_linksResolved [tsjParseLinks] ⟨"https", "api.example.com", "/widgets"⟩ c9Resp c9Out rfl

/-- Response with a nil Links map and a HAL body holding one non-curies
link. -/
def c10HalResp : Response :=
  { headers := [], links := none,
    body := .vMap [("_links", .vMap [("item", .vMap [("href", .vStr "/widgets/1")])])] }

/-- Response with a nil Links map and a Siren body holding one link with a
non-empty href. -/
def c10SirenResp : Response :=
  { headers := [], links := none,
    body := .vMap [("links", .vArr [.vMap [("rel", .vArr [.vStr "item"]),
                                           ("href", .vStr "/widgets/1")]])] }

/-- C10, code bug: with a nil Links map, both the HAL and the Siren parser
hit the Go panic of assigning into a nil map as soon as they have a
recordable link, while with an initialised map both record the link and
complete. -/
theorem c10_nilMapPanic :
    halParseLinks c10HalResp = .error (.goPanic "assignment to entry in nil map")
    ∧ sirenParseLinks c10SirenResp = .error (.goPanic "assignment to entry in nil map")
    ∧ halParseLinks { c10HalResp with links := some [] }
        = .ok { c10HalResp with links := some [("item", [{ rel := "item", uri := "/widgets/1" }])] }
    ∧ sirenParseLinks { c10SirenResp with links := some [] }
        = .ok { c10SirenResp with
                 links := some [("item", [{ rel := "item", uri := "/widgets/1" }])] } :=
  ⟨rfl, rfl, rfl, rfl⟩

/-- reflect.Value.IsZero of a bound flag value: false boolean, zero
number, empty string, nil slice.  An empty NON-nil slice is not zero; the
header branch of Operation.command documents exactly that ("IsZero()
above fails for empty arrays"). -/
def isZeroRV : GoValue → Bool
  | .vBool b => !b
  | .vInt n => n == 0
  | .vStr s => s == ""
  | .vArrNil => true
  | .vNull => true
  | .vArr _ => false
  | .vMap _ => false

/-- The comparison boundValue == param.Default of Operation.command: a
concrete bound value never equals a nil interface; otherwise structural
equality via goValueBEq. -/
def goEqDefault (v : GoValue) (d : Option GoValue) : Bool :=
  match d with
  | none => false
  | some dv => goValueBEq v dv

/-- Modelled from the spec: Param.Serialize (params.go is not under src/),
following section 4.2 of the specification: a scalar renders as one
canonical string; an array renders as a single comma-joined string under
simple style or unexploded form style, and as one string per element under
exploded form style.  The dispatch is on the VALUE being a slice, as in
the reflect-based original, so the nil slice serializes like the empty
one. -/
def Param.serialize (p : Param) (v : GoValue) : List String :=
  match v with
  | .vArr xs =>
    match p.style, p.explode with
    | .form, true => xs.map goValueToString
    | _, _ => [strJoinSep "," (xs.map goValueToString)]
  | .vArrNil =>
    match p.style, p.explode with
    | .form, true => []
    | _, _ => [""]
  | other => [goValueToString other]

/-- Modelled from the spec: Param.Parse (params.go is not under src/),
following section 4.2 of the specification: parse the raw CLI string into
a typed value per the declared parameter type; non-numeric text for an
integer-typed parameter fails.  Number parameters are modelled over the
integers (floating point is outside the embedding). -/
def Param.parse (p : Param) (raw : String) : Except String GoValue :=
  match p.typ with
  | "integer" =>
    match strToIntQ raw with
    | some n => .ok (.vInt n)
    | none => .error ("invalid integer value " ++ raw)
  | "number" =>
    match strToIntQ raw with
    | some n => .ok (.vInt n)
    | none => .error ("invalid number value " ++ raw)
  | "boolean" =>
    if raw = "true" then .ok (.vBool true)
    else if raw = "false" then .ok (.vBool false)
    else .error ("invalid boolean value " ++ raw)
  | _ => .ok (.vStr raw)

/-- The query-parameter skip conditions of Operation.command
(src/cli/operation.go, lines 75-84): skip when the bound value equals the
declared default, or when no default is declared and the bound value is
the reflect zero value.  There is NO empty-slice case here, unlike the
header branch below. -/
def querySkip (p : Param) (v : GoValue) : Bool :=
  goEqDefault v p.dflt || (p.dflt.isNone && isZeroRV v)

/-- The header-parameter skip conditions of Operation.command
(src/cli/operation.go, lines 102-120): the query conditions plus an
explicit skip of empty slices. -/
def headerSkip (p : Param) (v : GoValue) : Bool :=
  goEqDefault v p.dflt ||
    (p.dflt.isNone &&
      (isZeroRV v ||
        (match v with
         | .vArr xs => xs.isEmpty
         | .vArrNil => true
         | _ => false)))

/-- The query-building loop of Operation.command over the declared query
parameters and their bound values: the serialized name-value pairs of
every non-skipped parameter, in order (url.Values.Encode additionally
percent-encodes and sorts by name; presence and per-name multiplicity are
unaffected by that). -/
def buildQueryPairs : List (Param × GoValue) → List (String × String)
  | [] => []
  | (p, v) :: rest =>
    (if querySkip p v then [] else (p.serialize v).map (fun s => (p.name, s)))
      ++ buildQueryPairs rest

/-- The header-building loop of Operation.command. -/
def buildHeaderPairs : List (Param × GoValue) → List (String × String)
  | [] => []
  | (p, v) :: rest =>
    (if headerSkip p v then [] else (p.serialize v).map (fun s => (p.name, s)))
      ++ buildHeaderPairs rest

/-- The fatal report of a path-parameter parse failure (the log.Fatalf of
Operation.command): parameter name, offending input and underlying
message.  log.Fatalf exits the process, so an error here means no request
is ever issued. -/
structure ParamParseFatal where
  paramName : String
  offending : String
  message : String
deriving DecidableEq, Repr

/-- The path-substitution loop of Operation.command (src/cli/operation.go,
lines 62-71): parse each positional argument against its path parameter;
on failure abort fatally, reporting the parameter name and the input (the
input echoed through Serialize, whose first element for a string argument
is that argument); on success substitute the first occurrence of the
braced parameter name in the URI template.  cobra.ExactArgs or
MinimumNArgs pre-checks the argument count, so the argument list is at
least as long as the parameter list in every reachable call. -/
def substPathParams : String → List Param → List String → Except ParamParseFatal String
  | uri, [], _ => .ok uri
  | uri, _ :: _, [] => .ok uri
  | uri, p :: ps, a :: as =>
    match p.parse a with
    | .error m =>
      .error { paramName := p.name, offending := (p.serialize (.vStr a)).headD "",
               message := m }
    | .ok value =>
      substPathParams (replaceFirstOcc uri ("\x7b" ++ p.name ++ "\x7d") (goValueToString value))
        ps as

/-- The request assembled by Operation.command, up to the external
transport: method, URI with the encoded query appended, headers, and
whether a body is attached (only when the operation declares a media
type). -/
structure BuiltRequest where
  method : String
  uri : String
  headerPairs : List (String × String)
  hasBody : Bool
deriving Repr

/-- The Run closure of Operation.command (src/cli/operation.go, lines
61-140), up to the external transport: substitute the path parameters
(fatally aborting on any parse failure, before any request exists), build
the query and header values with default suppression, and assemble the
request.  The query string is modelled as name=value pairs joined by
ampersands in build order (Encode also sorts and escapes; no claim depends
on that). -/
def operationRun (o : Operation) (args : List String)
    (qvals hvals : List GoValue) : Except ParamParseFatal BuiltRequest :=
  match substPathParams o.uriTemplate o.pathParams args with
  | .error e => .error e
  | .ok uri0 =>
    let qpairs := buildQueryPairs (o.queryParams.zip qvals)
    let encoded := strJoinSep "&" (qpairs.map (fun kv => kv.1 ++ "=" ++ kv.2))
    let uri :=
      if encoded = "" then uri0
      else uri0 ++ (if strContainsSub uri0 "?" then "&" else "?") ++ encoded
    .ok { method := o.method, uri := uri,
          headerPairs := buildHeaderPairs (o.headerParams.zip hvals),
          hasBody := o.bodyMediaType != "" }

/-- Query parameter of array type with simple style and no declared
default. -/
def c1Tags : Param :=
  { typ := "array[string]", name := "tags", displayName := "", description := "",
    style := .simple, explode := false, dflt := none, exampleVal := none }

/-- Operation declaring only the tags query parameter. -/
def c1Op : Operation :=
  { name := "list-things", aliases := [], short := "", long := "", method := "GET",
    uriTemplate := "https://api.example.com/things", pathParams := [],
    queryParams := [c1Tags], headerParams := [], bodyMediaType := "", hidden := false }

/-- C1, code bug: bound to the empty (non-nil) array, the tags query
parameter is NOT omitted — the query branch of Operation.command lacks the
empty-slice skip that the header branch has, IsZero does not hold of an
empty non-nil slice, and simple-style serialization of the empty array
yields one empty string — so the outgoing request carries a dangling
tags= entry, while the same value bound to a header parameter is omitted
by the explicit empty-slice branch. -/
theorem c1_queryEmptyArrayIncluded :
    buildQueryPairs [(c1Tags, .vArr [])] = [("tags", "")]
    ∧ buildHeaderPairs [(c1Tags, .vArr [])] = []
    ∧ querySkip c1Tags (.vArr []) = false
    ∧ isZeroRV (.vArr []) = false
    ∧ operationRun c1Op [] [.vArr []] []
        = .ok { method := "GET", uri := "https://api.example.com/things?tags=",
                headerPairs := [], hasBody := false } :=
  ⟨rfl, rfl, rfl, rfl, rfl⟩

/-- A successful parse of every earlier positional argument followed by a
failing one makes the whole substitution loop abort with the report naming
the failing parameter and input. -/
theorem substPathParams_error (p : Param) (a m : String) (ps2 : List Param)
    (as2 : List String) (ps1 : List Param) (as1 : List String) (uri : String)
    (hf : List.Forall₂ (fun q b => ∃ w, q.parse b = Except.ok w) ps1 as1)
    (hp : p.parse a = .error m) :
    substPathParams uri (ps1 ++ p :: ps2) (as1 ++ a :: as2)
      = .error { paramName := p.name, offending := (p.serialize (.vStr a)).headD "",
                 message := m } := by
  induction hf generalizing uri with
  | nil =>
    simp only [List.nil_append]
    simp [substPathParams, hp]
  | cons h1 h2 ih =>
    obtain ⟨w, hw⟩ := h1
    simp only [List.cons_append]
    simp [substPathParams, hw]
    exact ih _

/-- C8, confirmed: when parsing some CLI-supplied path argument against
its declared parameter type fails, the invocation aborts fatally with a
report carrying the parameter name and the offending input, and no
request value is produced. -/
theorem c8_parseFailureAborts (o : Operation) (ps1 ps2 : List Param)
    (as1 as2 : List String) (p : Param) (a m : String) (qvals hvals : List GoValue) :
    o.pathParams = ps1 ++ p :: ps2 →
    List.Forall₂ (fun q b => ∃ w, q.parse b = Except.ok w) ps1 as1 →
    p.parse a = .error m →
    operationRun o (as1 ++ a :: as2) qvals hvals
      = .error { paramName := p.name, offending := a, message := m } := by
  intro hpath hf hp
  unfold operationRun
  rw [hpath, substPathParams_error p a m ps2 as2 ps1 as1 o.uriTemplate hf hp]
  rfl

/-- Integer-typed path parameter id. -/
def c8Id : Param :=
  { typ := "integer", name := "id", displayName := "", description := "",
    style := .simple, explode := false, dflt := none, exampleVal := none }

/-- Operation with one integer path parameter. -/
def c8Op : Operation :=
  { name := "get-user", aliases := [], short := "", long := "", method := "GET",
    uriTemplate := "https://api.example.com/users/{id}", pathParams := [c8Id],
    queryParams := [], headerParams := [], bodyMediaType := "", hidden := false }

/-- Witness for C8: supplying the non-integer value abc for the
integer-typed id aborts with the report naming id and abc, and no request
is built. -/
theorem c8_parseFailureAborts_wit :
    operationRun c8Op (([] : List String) ++ "abc" :: []) [] []
      = .error { paramName := "id", offending := "abc",
                 message := "invalid integer value abc" } :=
  c8_parseFailureAborts c8Op [] [] [] [] c8Id "abc" "invalid integer value abc" [] []
    rfl List.Forall₂.nil rfl

end Restish
